import Mathlib

/-!
Verification of the floqast_sftp lambda (src/floqast_sftp/app.py) against its
natural-language specification.  The Python module is shallowly embedded:
pure helpers become Lean functions, the stateful orchestration in
`lambda_handler` becomes a trace-producing function over an explicit
environment of external collaborators (secrets store, SFTP server, HTTP API,
wall clock), and every fallible operation returns `Except`/`Option`.
-/

/-! ## Calendar dates (model of Python `datetime.date`) -/

/-- A candidate calendar date as carried by Python `datetime.date`
(year, month, day).  Validity is a separate predicate, mirroring the fact
that Python validates the components when a date is constructed or
`replace`d. -/
structure PyDate where
  year : Int
  month : Nat
  day : Nat
deriving Repr, DecidableEq

/-- Gregorian leap-year rule used by Python `datetime`. -/
def isLeapYear (y : Int) : Bool :=
  y % 4 == 0 && (y % 100 != 0 || y % 400 == 0)

/-- Number of days in a month, as validated by Python `datetime.date`. -/
def daysInMonth (y : Int) (m : Nat) : Nat :=
  if m == 2 then (if isLeapYear y then 29 else 28)
  else if m == 4 || m == 6 || m == 9 || m == 11 then 30
  else 31

/-- Python `datetime.date` component validation: `MINYEAR = 1`,
`MAXYEAR = 9999`, month in 1..12, day in 1..days-of-month. -/
def PyDate.valid (d : PyDate) : Bool :=
  1 ≤ d.year && d.year ≤ 9999 && 1 ≤ d.month && d.month ≤ 12 &&
    1 ≤ d.day && d.day ≤ daysInMonth d.year d.month

/-- Model of the Python `date(...)` constructor / `date.replace`:
returns the date when the components are valid, and `none` where Python
raises `ValueError`. -/
def mkPyDate (y : Int) (m d : Nat) : Option PyDate :=
  if PyDate.valid ⟨y, m, d⟩ = true then some ⟨y, m, d⟩ else none

/-- `get_previous_month` from app.py: if the month is January, December of
the preceding year with the same day, else the same year and day with the
month decremented; `date.replace` validation applies (`none` = raise). -/
def get_previous_month (d : PyDate) : Option PyDate :=
  if d.month = 1 then mkPyDate (d.year - 1) 12 d.day
  else mkPyDate d.year (d.month - 1) d.day

/-- Totalised month stepper used to describe successful loop runs: it is
the identity exactly where `get_previous_month` raises. -/
def prevT (d : PyDate) : PyDate := (get_previous_month d).getD d

/-- Strict ordering of dates (year, then month, then day). -/
def PyDate.lt (a b : PyDate) : Bool :=
  a.year < b.year ||
    (a.year == b.year &&
      (a.month < b.month || (a.month == b.month && a.day < b.day)))

/-- Number of days of the month one month before `d` (December of the
previous year when `d` is in January). -/
def prevMonthDays (d : PyDate) : Nat :=
  if d.month = 1 then daysInMonth (d.year - 1) 12 else daysInMonth d.year (d.month - 1)

/-! ## String helpers (models of the Python string operations used) -/

/-- Accumulator-passing core of Python `str.split(sep)` for a one-character
separator, over explicit character lists. -/
def splitOnCharAux (sep : Char) : List Char → List Char → List (List Char)
  | [], acc => [acc.reverse]
  | c :: cs, acc =>
    if c == sep then acc.reverse :: splitOnCharAux sep cs []
    else splitOnCharAux sep cs (c :: acc)

/-- Python `str.split(sep)` for a one-character separator. -/
def splitOnChar (sep : Char) (cs : List Char) : List (List Char) :=
  splitOnCharAux sep cs []

/-- Value of a list of decimal digit characters. -/
def digitsVal (cs : List Char) : Nat :=
  cs.foldl (fun a c => a * 10 + (c.toNat - 48)) 0

/-- Zero-padded decimal rendering of a natural number (as produced by
`strftime` directives such as a two-digit month). -/
def padNat (w n : Nat) : String :=
  String.mk (List.replicate (w - (Nat.toDigits 10 n).length) '0' ++ Nat.toDigits 10 n)

/-- Python `date.isoformat()`: YYYY-MM-DD. -/
def PyDate.isoformat (d : PyDate) : String :=
  padNat 4 d.year.toNat ++ "-" ++ padNat 2 d.month ++ "-" ++ padNat 2 d.day

/-- Python whitespace test used by `int(str)` stripping. -/
def isPySpace (c : Char) : Bool :=
  c == ' ' || c == '\t' || c == '\n' || c == '\x0d' || c == '\x0b' || c == '\x0c'

/-- Strip leading and trailing whitespace (Python `str.strip()`). -/
def pyStrip (cs : List Char) : List Char :=
  ((cs.dropWhile isPySpace).reverse.dropWhile isPySpace).reverse

/-- Nonempty all-digit run, the body accepted by Python `int(str)`. -/
def pyIntDigits (cs : List Char) : Option Nat :=
  if !cs.isEmpty && cs.all Char.isDigit then some (digitsVal cs) else none

/-- Model of Python `int(str)`: optional surrounding whitespace, optional
sign, decimal digits (digit-group underscores and non-ASCII digits are not
modelled; no input in this system uses them). `none` = `ValueError`. -/
def pyIntString (s : String) : Option Int :=
  match pyStrip s.toList with
  | '+' :: rest => (pyIntDigits rest).map Int.ofNat
  | '-' :: rest => (pyIntDigits rest).map (fun n => -(Int.ofNat n))
  | rest => (pyIntDigits rest).map Int.ofNat

/-- Parse an ISO `YYYY-MM-DD` string (pre-3.11 Python
`date.fromisoformat`); calendar validity is checked like `date(...)`. -/
def pyDateFromIso (s : String) : Option PyDate :=
  match splitOnChar '-' s.toList with
  | [ys, ms, ds] =>
    if ys.length == 4 && ms.length == 2 && ds.length == 2 &&
        ys.all Char.isDigit && ms.all Char.isDigit && ds.all Char.isDigit then
      mkPyDate (Int.ofNat (digitsVal ys)) (digitsVal ms) (digitsVal ds)
    else none
  | _ => none

/-- Full English month name, `strftime("%B")`. -/
def monthName : Nat → String
  | 1 => "January"
  | 2 => "February"
  | 3 => "March"
  | 4 => "April"
  | 5 => "May"
  | 6 => "June"
  | 7 => "July"
  | 8 => "August"
  | 9 => "September"
  | 10 => "October"
  | 11 => "November"
  | 12 => "December"
  | _ => ""

/-! Quick sanity examples (kept as propositions, they are part of the
development's self-checks). -/

example : get_previous_month ⟨2025, 4, 4⟩ = some ⟨2025, 3, 4⟩ := by decide

example : get_previous_month ⟨2025, 1, 4⟩ = some ⟨2024, 12, 4⟩ := by decide

example : get_previous_month ⟨2025, 3, 31⟩ = none := by decide

example : PyDate.isoformat ⟨2025, 4, 4⟩ = "2025-04-04" := by decide

example : pyIntString " 42 " = some 42 := by decide

example : pyIntString "invalid" = none := by decide

example : pyDateFromIso "2025-03-01" = some ⟨2025, 3, 1⟩ := by decide

/-! ## Wall clock and file names -/

/-- A wall-clock instant as carried by Python `datetime.datetime`
(only the fields used by `strftime("%Y%m%d%H%M%S")`). -/
structure PyDateTime where
  year : Nat
  month : Nat
  day : Nat
  hour : Nat
  minute : Nat
  second : Nat
deriving Repr, DecidableEq

/-- `datetime.strftime("%Y%m%d%H%M%S")`. -/
def timestamp14 (t : PyDateTime) : String :=
  padNat 4 t.year ++ padNat 2 t.month ++ padNat 2 t.day ++
    padNat 2 t.hour ++ padNat 2 t.minute ++ padNat 2 t.second

/-- `get_file_name` from app.py.  The wall clock (`datetime.now()`) is
passed explicitly as `now`.  `none` models the `ValueError` raised by
`date.fromisoformat` on a malformed period string. -/
def get_file_name (period : String) (now : PyDateTime) : Option String :=
  (pyDateFromIso period).map (fun d =>
    "Sage-Balances-" ++ monthName d.month ++ "-" ++ padNat 4 d.year.toNat ++ "-" ++
      timestamp14 now ++ ".csv")

/-! ## CSV model (the fragment of `csv.DictReader` exercised here) -/

/-- Drop one trailing carriage return from a line. -/
def dropCR (l : List Char) : List Char :=
  if l.getLast? == some '\x0d' then l.dropLast else l

/-- Rows of a CSV text: newline-separated lines, blank lines skipped
(`csv.DictReader` skips empty rows), cells comma-separated.  Quoted fields
are not modelled; no CSV in this system quotes fields. -/
def csvRows (text : String) : List (List String) :=
  ((splitOnChar '\n' text.toList).map dropCR).filterMap (fun l =>
    if l.isEmpty then none else some ((splitOnChar ',' l).map String.mk))

/-- The value of column `field` in the first data row of `text`, with the
first row as header — the `next(csv.DictReader(...))[field]` access in
`get_balances_csv`.  `none` models the exceptions raised when the header,
the first data row, or the column is missing. -/
def firstRowField (text field : String) : Option String :=
  match csvRows text with
  | header :: r :: _ =>
    match header.findIdx? (fun c => c == field) with
    | some i => r[i]?
    | none => none
  | _ => none

/-! ## Requests, errors and external collaborators -/

/-- A JSON-ish event value: the EventBridge payloads used here carry
strings and integers. -/
inductive PyVal where
  | vStr (s : String)
  | vInt (n : Int)
deriving Repr, DecidableEq

/-- The EventBridge event: a string-keyed dictionary. -/
abbrev PyEvent := List (String × PyVal)

/-- Python `str(...)` on an event value. -/
def pyStr : PyVal → String
  | .vStr s => s
  | .vInt n => toString n

/-- Python `int(...)` on an event value (`none` = `TypeError`/`ValueError`). -/
def pyIntOfVal : PyVal → Option Int
  | .vInt n => some n
  | .vStr s => pyIntString s

/-- The errors the module can raise, following the spec's taxonomy.
`invalidRequest` stands for the `ValueError`s of input validation,
`missingCred`/`invalidCred` for the `KeyError`/`ValueError` of
`get_ssm_params`, `dateRange` for the `ValueError` of `date.replace`. -/
inductive Err where
  | invalidRequest (msg : String)
  | missingCred (key : String)
  | invalidCred (key : String)
  | connectionError
  | authError
  | fetchError
  | malformedReport
  | uploadError
  | dateRange
deriving Repr, DecidableEq

instance {ε α : Type} [DecidableEq ε] [DecidableEq α] : DecidableEq (Except ε α)
  | .error a, .error b =>
    if h : a = b then .isTrue (by rw [h]) else .isFalse (fun hh => h (by cases hh; rfl))
  | .error _, .ok _ => .isFalse (fun hh => Except.noConfusion hh)
  | .ok _, .error _ => .isFalse (fun hh => Except.noConfusion hh)
  | .ok a, .ok b =>
    if h : a = b then .isTrue (by rw [h]) else .isFalse (fun hh => h (by cases hh; rfl))

/-- An HTTP response: status code and body text. -/
structure Resp where
  status : Nat
  text : String
deriving Repr, DecidableEq

/-- The `io.StringIO` file object uploaded over SFTP: its content and the
current stream position. -/
structure FileObj where
  content : String
  pos : Nat
deriving Repr, DecidableEq

/-- Externally observable actions of one invocation, in order.  The
`transportOpen`/`sessionOpen` events record acquisition of the paramiko
transport connection and SFTP session; `closeClient`/`closeTransport`
record their release. -/
inductive Ev where
  | ssmCall
  | transportOpen
  | sessionOpen
  | httpGet (url : String)
  | upload (name : String)
  | uploadFail (name : String)
  | closeClient
  | closeTransport
deriving Repr, DecidableEq

/-- The external world of one invocation: today's date, the wall clock,
the secrets store's reply per prefix, whether the transport connection and
the authentication succeed, the HTTP reply per URL, and whether an upload
of a given name/content succeeds. -/
structure Env where
  today : PyDate
  now : PyDateTime
  ssm : String → List (String × String)
  transportOk : Bool
  authOk : Bool
  http : String → Resp
  uploadOk : String → String → Bool

/-! ## The operations of app.py -/

/-- `get_event_param` from app.py: dictionary lookup, raising
`ValueError(f"{param} not provided")` when the key is absent. -/
def get_event_param (event : PyEvent) (param : String) : Except Err PyVal :=
  match event.lookup param with
  | none => .error (Err.invalidRequest (param ++ " not provided"))
  | some v => .ok v

/-- `get_period_count` from app.py: read `period_count`, coerce with
`int(...)`, require a value greater than 0. -/
def get_period_count (event : PyEvent) : Except Err Int :=
  match get_event_param event "period_count" with
  | .error e => .error e
  | .ok v =>
    match pyIntOfVal v with
    | none => .error (Err.invalidRequest "period_count must be an integer")
    | some n =>
      if n < 1 then .error (Err.invalidRequest "period_count must be greater than 0")
      else .ok n

/-- The key shortening in `get_ssm_params`: Python
`p["Name"].split("/")[-1]`, i.e. the final slash-separated segment. -/
def stripKey (name : String) : String :=
  String.mk ((splitOnChar '/' name.toList).getLastD [])

/-- Insert into an insertion-ordered dictionary: an existing key keeps its
position and gets the new value, a new key is appended (Python `dict`). -/
def dictInsert (k v : String) (d : List (String × String)) : List (String × String) :=
  if d.any (fun kv => kv.1 == k) then
    d.map (fun kv => if kv.1 == k then (k, v) else kv)
  else d ++ [(k, v)]

/-- The `params` dictionary built by `get_ssm_params` from the secrets
store response (a list of full-key/value pairs), keys shortened. -/
def buildParams (resp : List (String × String)) : List (String × String) :=
  resp.foldl (fun acc p => dictInsert (stripKey p.1) p.2 acc) []

/-- A credential value after post-processing: every field stays a string
except `port`, which becomes an integer. -/
inductive PVal where
  | s (v : String)
  | i (n : Int)
deriving Repr, DecidableEq

/-- `get_ssm_params` from app.py, applied to the secrets store's reply
(the network exchange itself is the caller's `Ev.ssmCall` event):
shorten the keys, require `user`/`pass`/`host`, convert a present `port`
with `int(...)`, default an absent `port` to 22. -/
def get_ssm_params (resp : List (String × String)) : Except Err (List (String × PVal)) :=
  let params := buildParams resp
  if (params.lookup "user").isNone then .error (Err.missingCred "user")
  else if (params.lookup "pass").isNone then .error (Err.missingCred "pass")
  else if (params.lookup "host").isNone then .error (Err.missingCred "host")
  else
    match params.lookup "port" with
    | some v =>
      match pyIntString v with
      | none => .error (Err.invalidCred "port")
      | some k =>
        .ok (params.map (fun kv => if kv.1 == "port" then (kv.1, PVal.i k) else (kv.1, PVal.s kv.2)))
    | none => .ok ((params.map (fun kv => (kv.1, PVal.s kv.2))) ++ [("port", PVal.i 22)])

/-- Does the result classify as the spec's `MissingCredentialError`? -/
def isMissingCredErr {α : Type} : Except Err α → Bool
  | .error (.missingCred _) => true
  | _ => false

/-- Does the result classify as the spec's `InvalidCredentialError`? -/
def isInvalidCredErr {α : Type} : Except Err α → Bool
  | .error (.invalidCred _) => true
  | _ => false

/-- `get_sftp_client` from app.py, as a resource trace.  Paramiko's
`Transport((host, port))` establishes the transport connection (its
failure raises before any resource is acquired); `transport.connect`
authenticates, and on failure raises with the transport still open —
the function has no cleanup handler; `SFTPClient.from_transport` then
yields the session.  The credentials argument is carried for shape, the
outcome oracles live in `env`. -/
def get_sftp_client (env : Env) (_auth : List (String × PVal)) :
    List Ev × Except Err Unit :=
  if !env.transportOk then ([], .error Err.connectionError)
  else if !env.authOk then ([Ev.transportOpen], .error Err.authError)
  else ([Ev.transportOpen, Ev.sessionOpen], .ok ())

/-- The pure URL construction of `get_csv_url`: append
`show_inactive_codes&target_date=<when>` after `&` when the base already
has a query string (contains a question mark) and after `?` otherwise. -/
def build_csv_url (base url_when : String) : String :=
  if base.toList.contains '?' then
    base ++ "&" ++ ("show_inactive_codes&target_date=" ++ url_when)
  else
    base ++ "?" ++ ("show_inactive_codes&target_date=" ++ url_when)

/-- `get_csv_url` from app.py: read `mip_api_balances_url` from the event
(raising when absent) and build the full URL.  A non-string base would
make Python's containment test raise `TypeError`; events here carry the
URL as a string, and the non-string case is mapped to `invalidRequest`. -/
def get_csv_url (event : PyEvent) (url_when : String) : Except Err String :=
  match get_event_param event "mip_api_balances_url" with
  | .error e => .error e
  | .ok (.vStr base) => .ok (build_csv_url base url_when)
  | .ok (.vInt _) => .error (Err.invalidRequest "mip_api_balances_url is not a string")

/-- `get_balances_csv` from app.py, applied to the HTTP response for the
constructed URL (the GET itself is the loop's `Ev.httpGet` event):
`raise_for_status` (4xx/5xx fail), read `PeriodStart` from the first data
row, reset the stream to position 0, and derive the file name. -/
def get_balances_csv (resp : Resp) (now : PyDateTime) :
    Except Err (String × FileObj) :=
  if 400 ≤ resp.status ∧ resp.status < 600 then .error Err.fetchError
  else
    match firstRowField resp.text "PeriodStart" with
    | none => .error Err.malformedReport
    | some period =>
      match get_file_name period now with
      | none => .error Err.malformedReport
      | some name => .ok (name, { content := resp.text, pos := 0 })

/-- The fetch-and-upload loop of `lambda_handler` (`for _ in
range(period_count)`), with the remaining iteration count as fuel and the
current reference date as state.  Each iteration: build the URL (reading
the base from the event), GET it, parse and name the report, upload it,
then step the reference date back one month. -/
def runLoop (env : Env) (event : PyEvent) : Nat → PyDate → List Ev × Except Err Unit
  | 0, _ => ([], .ok ())
  | fuel + 1, period =>
    match get_csv_url event period.isoformat with
    | .error e => ([], .error e)
    | .ok url =>
      match get_balances_csv (env.http url) env.now with
      | .error e => ([Ev.httpGet url], .error e)
      | .ok nf =>
        if env.uploadOk nf.1 nf.2.content then
          match get_previous_month period with
          | none => ([Ev.httpGet url, Ev.upload nf.1], .error Err.dateRange)
          | some p' =>
            (Ev.httpGet url :: Ev.upload nf.1 :: (runLoop env event fuel p').1,
              (runLoop env event fuel p').2)
        else ([Ev.httpGet url, Ev.uploadFail nf.1], .error Err.uploadError)

/-- `lambda_handler` from app.py as a trace-producing function: validate
`period_count`, read the secrets prefix, query the secrets store, open the
SFTP client, run the loop starting at today inside `try`, and in the
`finally` close the SFTP session and then the transport.  The returned
`Except` is the invocation outcome (errors propagate to the caller). -/
def lambda_handler (env : Env) (event : PyEvent) : List Ev × Except Err Unit :=
  match get_period_count event with
  | .error e => ([], .error e)
  | .ok n =>
    match get_event_param event "ssm_secret_prefix" with
    | .error e => ([], .error e)
    | .ok pfx =>
      match get_ssm_params (env.ssm (pyStr pfx)) with
      | .error e => ([Ev.ssmCall], .error e)
      | .ok auth =>
        match (get_sftp_client env auth).2 with
        | .error e => (Ev.ssmCall :: (get_sftp_client env auth).1, .error e)
        | .ok _ =>
          (Ev.ssmCall :: (get_sftp_client env auth).1 ++
              (runLoop env event n.toNat env.today).1 ++
              [Ev.closeClient, Ev.closeTransport],
            (runLoop env event n.toNat env.today).2)

/-- The reference dates of an invocation: `previousMonth` iterated
`0, 1, ..., n-1` times on today's date. -/
def refDates (today : PyDate) (n : Nat) : List PyDate :=
  (List.range n).map (fun i => prevT^[i] today)

/-- The fetch/upload event trace of a successful run of `n` cycles with
the given uploaded file names. -/
def cycleTrace (base : String) (ds : List PyDate) (names : List String) : List Ev :=
  List.flatten (List.zipWith
    (fun d nm => [Ev.httpGet (build_csv_url base d.isoformat), Ev.upload nm]) ds names)

/-! ## Concrete scenarios used to exercise the model -/

/-- A sample balances CSV body (the column set of the balances API). -/
def wCsv : String :=
  "AccountName,PeriodStart,PeriodEnd,Activity\nTest,2025-03-01,2025-03-01,0"

/-- A sample secrets-store reply: `user`, `pass`, `host` one level below
the prefix, no `port`. -/
def wSsm : List (String × String) :=
  [("/sftp/user", "u"), ("/sftp/pass", "pw"), ("/sftp/host", "example.com")]

/-- An environment in which every external call succeeds. -/
def envFullRun : Env :=
  { today := ⟨2025, 4, 4⟩, now := ⟨2025, 4, 4, 10, 10, 10⟩, ssm := fun _ => wSsm,
    transportOk := true, authOk := true, http := fun _ => ⟨200, wCsv⟩,
    uploadOk := fun _ _ => true }

/-- A well-formed two-month invocation request. -/
def eventFullRun : PyEvent :=
  [("period_count", .vInt 2), ("ssm_secret_prefix", .vStr "/sftp"),
   ("mip_api_balances_url", .vStr "https://example.com/balances")]

/-- An environment in which every upload attempt fails. -/
def envUploadFailure : Env :=
  { today := ⟨2025, 4, 4⟩, now := ⟨2025, 4, 4, 10, 10, 10⟩, ssm := fun _ => wSsm,
    transportOk := true, authOk := true, http := fun _ => ⟨200, wCsv⟩,
    uploadOk := fun _ _ => false }

/-- A well-formed one-month invocation request. -/
def eventUploadFailure : PyEvent :=
  [("period_count", .vInt 1), ("ssm_secret_prefix", .vStr "/sftp"),
   ("mip_api_balances_url", .vStr "https://example.com/balances")]

/-- An environment in which every external call succeeds, used with a
request that lacks the balances URL. -/
def envMissingUrl : Env :=
  { today := ⟨2025, 4, 4⟩, now := ⟨2025, 4, 4, 10, 10, 10⟩, ssm := fun _ => wSsm,
    transportOk := true, authOk := true, http := fun _ => ⟨200, wCsv⟩,
    uploadOk := fun _ _ => true }

/-- A request with a valid `period_count` and secrets prefix but no
`mip_api_balances_url`. -/
def eventMissingUrl : PyEvent :=
  [("period_count", .vStr "1"), ("ssm_secret_prefix", .vStr "/sftp")]

/-- An environment in which the transport connection is established but
authentication fails. -/
def envAuthFailure : Env :=
  { today := ⟨2025, 4, 4⟩, now := ⟨2025, 4, 4, 10, 10, 10⟩, ssm := fun _ => wSsm,
    transportOk := true, authOk := false, http := fun _ => ⟨200, wCsv⟩,
    uploadOk := fun _ _ => true }

/-- A well-formed one-month invocation request (auth-failure scenario). -/
def eventAuthFailure : PyEvent :=
  [("period_count", .vInt 1), ("ssm_secret_prefix", .vStr "/sftp"),
   ("mip_api_balances_url", .vStr "https://example.com/balances")]

/-- The credentials resolved from `wSsm` (default port 22). -/
def wAuth : List (String × PVal) :=
  [("user", PVal.s "u"), ("pass", PVal.s "pw"), ("host", PVal.s "example.com"),
   ("port", PVal.i 22)]

/-! ## General lemmas about the embedding -/

/-- Every month has at least 28 days. -/
theorem daysInMonth_ge (y : Int) (m : Nat) : 28 ≤ daysInMonth y m := by
  unfold daysInMonth
  split
  · split <;> omega
  · split <;> omega

/-- December always has 31 days. -/
theorem daysInMonth_twelve (y : Int) : daysInMonth y 12 = 31 := by
  simp [daysInMonth]

/-- January always has 31 days. -/
theorem daysInMonth_one (y : Int) : daysInMonth y 1 = 31 := by
  simp [daysInMonth]

/-- On a valid date, `get_previous_month` fails exactly when the day
overflows the previous month or the input is January of the minimum
year 1 (Python refuses `year=0`). -/
theorem prev_none_iff (d : PyDate) (hv : d.valid = true) :
    get_previous_month d = none ↔
      (prevMonthDays d < d.day ∨ (d.month = 1 ∧ d.year = 1)) := by
  obtain ⟨y, m, dd⟩ := d
  simp only [PyDate.valid, Bool.and_eq_true, decide_eq_true_eq] at hv
  obtain ⟨⟨⟨⟨⟨h1, h2⟩, h3⟩, h4⟩, h5⟩, h6⟩ := hv
  by_cases hm : m = 1
  · subst hm
    have h31 : daysInMonth y 1 = 31 := daysInMonth_one y
    rw [show get_previous_month ⟨y, 1, dd⟩ = mkPyDate (y - 1) 12 dd from if_pos rfl,
      show prevMonthDays ⟨y, 1, dd⟩ = daysInMonth (y - 1) 12 from if_pos rfl,
      daysInMonth_twelve]
    by_cases hq : PyDate.valid ⟨y - 1, 12, dd⟩ = true
    · rw [mkPyDate, if_pos hq]
      simp only [PyDate.valid, Bool.and_eq_true, decide_eq_true_eq, daysInMonth_twelve] at hq
      simp only [reduceCtorEq, false_iff]
      omega
    · rw [mkPyDate, if_neg hq]
      simp only [true_iff]
      by_cases hy : y = 1
      · right
        exact ⟨trivial, hy⟩
      · exfalso
        apply hq
        simp only [PyDate.valid, Bool.and_eq_true, decide_eq_true_eq, daysInMonth_twelve]
        omega
  · have hdm : 28 ≤ daysInMonth y (m - 1) := daysInMonth_ge y (m - 1)
    rw [show get_previous_month ⟨y, m, dd⟩ = mkPyDate y (m - 1) dd from if_neg hm,
      show prevMonthDays ⟨y, m, dd⟩ = daysInMonth y (m - 1) from if_neg hm]
    by_cases hq : PyDate.valid ⟨y, m - 1, dd⟩ = true
    · rw [mkPyDate, if_pos hq]
      simp only [PyDate.valid, Bool.and_eq_true, decide_eq_true_eq] at hq
      simp only [reduceCtorEq, false_iff]
      rintro (hlt | ⟨hm1, hy1⟩)
      · omega
      · exact hm hm1
    · rw [mkPyDate, if_neg hq]
      simp only [true_iff]
      by_cases hd2 : dd ≤ daysInMonth y (m - 1)
      · exfalso
        apply hq
        simp only [PyDate.valid, Bool.and_eq_true, decide_eq_true_eq]
        omega
      · left
        omega

/-- When `get_previous_month` succeeds, the output is strictly earlier
than the input. -/
theorem prev_lt (d d' : PyDate) (h : get_previous_month d = some d') :
    PyDate.lt d' d = true := by
  obtain ⟨y, m, dd⟩ := d
  by_cases hm : m = 1
  · subst hm
    rw [show get_previous_month ⟨y, 1, dd⟩ = mkPyDate (y - 1) 12 dd from if_pos rfl,
      mkPyDate] at h
    split at h
    · cases h
      simp only [PyDate.lt, Bool.or_eq_true, decide_eq_true_eq]
      omega
    · cases h
  · rw [show get_previous_month ⟨y, m, dd⟩ = mkPyDate y (m - 1) dd from if_neg hm,
      mkPyDate] at h
    split at h
    · rename_i hcond
      simp only [PyDate.valid, Bool.and_eq_true, decide_eq_true_eq] at hcond
      cases h
      simp only [PyDate.lt, Bool.or_eq_true, Bool.and_eq_true, decide_eq_true_eq, beq_iff_eq]
      refine Or.inr ⟨trivial, Or.inl ?_⟩
      omega
    · cases h

/-! ## Helper lemmas for key shortening (`str.split("/")[-1]`) -/

/-- `splitOnCharAux` never returns the empty list. -/
theorem splitOnCharAux_ne_nil (sep : Char) (cs acc : List Char) :
    splitOnCharAux sep cs acc ≠ [] := by
  induction cs generalizing acc with
  | nil => simp [splitOnCharAux]
  | cons c cs ih =>
    simp only [splitOnCharAux]
    split
    · simp
    · exact ih _

/-- The default value of `getLastD` is irrelevant on a nonempty list. -/
theorem getLastD_of_ne_nil {α : Type} (l : List α) (d d' : α) (h : l ≠ []) :
    l.getLastD d = l.getLastD d' := by
  cases l with
  | nil => exact absurd rfl h
  | cons x xs => rw [List.getLastD_cons, List.getLastD_cons]

/-- Splitting a separator-free list yields a single piece. -/
theorem splitOnCharAux_no_sep (sep : Char) (cs acc : List Char)
    (h : ∀ c ∈ cs, ¬c = sep) :
    splitOnCharAux sep cs acc = [acc.reverse ++ cs] := by
  induction cs generalizing acc with
  | nil => simp [splitOnCharAux]
  | cons c cs ih =>
    have hc : ¬c = sep := h c (by simp)
    simp only [splitOnCharAux, beq_iff_eq, if_neg hc]
    rw [ih (c :: acc) (fun x hx => h x (by simp [hx]))]
    simp

/-- The last piece of a split is the run after the last separator. -/
theorem splitOnCharAux_last (sep : Char) (xs leaf acc : List Char)
    (h : ∀ c ∈ leaf, ¬c = sep) :
    (splitOnCharAux sep (xs ++ sep :: leaf) acc).getLastD [] = leaf := by
  induction xs generalizing acc with
  | nil =>
    have hstep : splitOnCharAux sep (sep :: leaf) acc =
        acc.reverse :: splitOnCharAux sep leaf [] := by
      simp [splitOnCharAux]
    rw [List.nil_append, hstep, List.getLastD_cons, splitOnCharAux_no_sep sep leaf [] h]
    simp
  | cons x xs ih =>
    by_cases hx : x = sep
    · have hstep : splitOnCharAux sep (sep :: (xs ++ sep :: leaf)) acc =
          acc.reverse :: splitOnCharAux sep (xs ++ sep :: leaf) [] := by
        simp [splitOnCharAux]
      rw [List.cons_append, hx, hstep, List.getLastD_cons,
        getLastD_of_ne_nil _ acc.reverse [] (splitOnCharAux_ne_nil sep (xs ++ sep :: leaf) [])]
      exact ih []
    · have hstep : splitOnCharAux sep (x :: (xs ++ sep :: leaf)) acc =
          splitOnCharAux sep (xs ++ sep :: leaf) (x :: acc) := by
        simp [splitOnCharAux, hx]
      rw [List.cons_append, hstep]
      exact ih _

/-- Shortening a key whose last segment is slash-free yields that
segment. -/
theorem stripKey_append (pre leaf : String) (h : ∀ c ∈ leaf.toList, ¬c = '/') :
    stripKey (pre ++ "/" ++ leaf) = leaf := by
  have hdata : (pre ++ "/" ++ leaf).toList = pre.toList ++ '/' :: leaf.toList := by
    simp [String.toList, String.data_append]
  rw [show stripKey (pre ++ "/" ++ leaf) =
      String.mk ((splitOnChar '/' (pre ++ "/" ++ leaf).toList).getLastD []) from rfl,
    hdata, splitOnChar, splitOnCharAux_last '/' pre.toList leaf.toList [] h]
  rfl

/-! ## Lemmas about the orchestration -/

/-- A successfully validated `period_count` is at least 1. -/
theorem get_period_count_pos (event : PyEvent) (n : Int)
    (h : get_period_count event = .ok n) : 1 ≤ n := by
  simp only [get_period_count] at h
  split at h
  · cases h
  · split at h
    · cases h
    · split at h
      · cases h
      · rename_i hlt
        cases h
        omega

/-- With the balances URL present as a string in the event, URL
construction succeeds with the built URL. -/
theorem get_csv_url_ok (event : PyEvent) (base url_when : String)
    (hb : get_event_param event "mip_api_balances_url" = .ok (.vStr base)) :
    get_csv_url event url_when = .ok (build_csv_url base url_when) := by
  simp [get_csv_url, hb]

/-- One unfolding of the loop body. -/
theorem runLoop_succ (env : Env) (event : PyEvent) (fuel : Nat) (period : PyDate) :
    runLoop env event (fuel + 1) period =
      match get_csv_url event period.isoformat with
      | .error e => ([], .error e)
      | .ok url =>
        match get_balances_csv (env.http url) env.now with
        | .error e => ([Ev.httpGet url], .error e)
        | .ok nf =>
          if env.uploadOk nf.1 nf.2.content then
            match get_previous_month period with
            | none => ([Ev.httpGet url, Ev.upload nf.1], .error Err.dateRange)
            | some p' =>
              (Ev.httpGet url :: Ev.upload nf.1 :: (runLoop env event fuel p').1,
                (runLoop env event fuel p').2)
          else ([Ev.httpGet url, Ev.uploadFail nf.1], .error Err.uploadError) := rfl

/-- Peeling one reference date off the sequence. -/
theorem refDates_succ (today : PyDate) (n : Nat) :
    refDates today (n + 1) = today :: refDates (prevT today) n := by
  simp only [refDates, List.range_succ_eq_map, List.map_cons, List.map_map]
  have hz : prevT^[0] today = today := Function.iterate_zero_apply prevT today
  have hf : ((fun i => prevT^[i] today) ∘ Nat.succ) = (fun i => prevT^[i] (prevT today)) := by
    funext i
    exact Function.iterate_succ_apply prevT i today
  rw [hz, hf]

/-- The loop trace contains only fetch and upload events (in particular
no session-close events). -/
theorem runLoop_events (env : Env) (event : PyEvent) :
    ∀ (fuel : Nat) (period : PyDate) (ltr : List Ev) (r : Except Err Unit) (e : Ev),
      runLoop env event fuel period = (ltr, r) → e ∈ ltr →
      (∃ u, e = Ev.httpGet u) ∨ (∃ s, e = Ev.upload s) ∨ (∃ s, e = Ev.uploadFail s) := by
  intro fuel
  induction fuel with
  | zero =>
    intro period ltr r e h he
    rw [show runLoop env event 0 period = ([], .ok ()) from rfl] at h
    injection h with h1 h2
    subst h1
    simp at he
  | succ fuel ih =>
    intro period ltr r e h he
    rw [runLoop_succ] at h
    cases hcu : get_csv_url event period.isoformat with
    | error e1 =>
      simp only [hcu] at h
      injection h with h1 h2
      subst h1
      simp at he
    | ok url =>
      simp only [hcu] at h
      cases hgb : get_balances_csv (env.http url) env.now with
      | error e2 =>
        simp only [hgb] at h
        injection h with h1 h2
        subst h1
        simp only [List.mem_singleton] at he
        exact Or.inl ⟨url, he⟩
      | ok nf =>
        simp only [hgb] at h
        cases hup : env.uploadOk nf.1 nf.2.content with
        | false =>
          simp only [hup, Bool.false_eq_true, if_false] at h
          injection h with h1 h2
          subst h1
          simp only [List.mem_cons, List.mem_singleton, List.not_mem_nil, or_false] at he
          rcases he with he | he
          · exact Or.inl ⟨url, he⟩
          · exact Or.inr (Or.inr ⟨nf.1, he⟩)
        | true =>
          simp only [hup, if_true] at h
          cases hpm : get_previous_month period with
          | none =>
            simp only [hpm] at h
            injection h with h1 h2
            subst h1
            simp only [List.mem_cons, List.mem_singleton, List.not_mem_nil, or_false] at he
            rcases he with he | he
            · exact Or.inl ⟨url, he⟩
            · exact Or.inr (Or.inl ⟨nf.1, he⟩)
          | some p' =>
            simp only [hpm] at h
            injection h with h1 h2
            subst h1
            simp only [List.mem_cons] at he
            rcases he with he | he | he
            · exact Or.inl ⟨url, he⟩
            · exact Or.inr (Or.inl ⟨nf.1, he⟩)
            · exact ih p' (runLoop env event fuel p').1 (runLoop env event fuel p').2 e rfl he

/-- A failed upload attempt ends the loop trace, and the loop's outcome
is then the upload error. -/
theorem runLoop_uploadFail (env : Env) (event : PyEvent) :
    ∀ (fuel : Nat) (period : PyDate) (ltr : List Ev) (r : Except Err Unit) (nm : String),
      runLoop env event fuel period = (ltr, r) → Ev.uploadFail nm ∈ ltr →
      (∃ b, ltr = b ++ [Ev.uploadFail nm]) ∧ r = .error Err.uploadError := by
  intro fuel
  induction fuel with
  | zero =>
    intro period ltr r nm h he
    rw [show runLoop env event 0 period = ([], .ok ()) from rfl] at h
    injection h with h1 h2
    subst h1
    simp at he
  | succ fuel ih =>
    intro period ltr r nm h he
    rw [runLoop_succ] at h
    cases hcu : get_csv_url event period.isoformat with
    | error e1 =>
      simp only [hcu] at h
      injection h with h1 h2
      subst h1
      simp at he
    | ok url =>
      simp only [hcu] at h
      cases hgb : get_balances_csv (env.http url) env.now with
      | error e2 =>
        simp only [hgb] at h
        injection h with h1 h2
        subst h1
        simp at he
      | ok nf =>
        simp only [hgb] at h
        cases hup : env.uploadOk nf.1 nf.2.content with
        | false =>
          simp only [hup, Bool.false_eq_true, if_false] at h
          injection h with h1 h2
          subst h1
          subst h2
          simp only [List.mem_cons, List.mem_singleton, List.not_mem_nil, or_false] at he
          rcases he with he | he
          · cases he
          · cases he
            exact ⟨⟨[Ev.httpGet url], rfl⟩, rfl⟩
        | true =>
          simp only [hup, if_true] at h
          cases hpm : get_previous_month period with
          | none =>
            simp only [hpm] at h
            injection h with h1 h2
            subst h1
            simp only [List.mem_cons, List.mem_singleton, List.not_mem_nil, or_false] at he
            rcases he with he | he
            · cases he
            · cases he
          | some p' =>
            simp only [hpm] at h
            injection h with h1 h2
            subst h1
            subst h2
            simp only [List.mem_cons] at he
            rcases he with he | he | he
            · cases he
            · cases he
            · obtain ⟨⟨b, hb⟩, hr⟩ :=
                ih p' (runLoop env event fuel p').1 (runLoop env event fuel p').2 nm rfl he
              refine ⟨⟨Ev.httpGet url :: Ev.upload nf.1 :: b, ?_⟩, hr⟩
              simp [hb]

/-- A fully successful loop run of `fuel` cycles fetches exactly the
`fuel` reference dates obtained by iterating `previousMonth` from the
initial date, uploading one report after each fetch, and every month
step along the way succeeded. -/
theorem runLoop_ok (env : Env) (event : PyEvent) (base : String)
    (hb : get_event_param event "mip_api_balances_url" = .ok (.vStr base)) :
    ∀ (fuel : Nat) (period : PyDate) (ltr : List Ev),
      runLoop env event fuel period = (ltr, .ok ()) →
      ∃ names : List String, names.length = fuel ∧
        ltr = cycleTrace base (refDates period fuel) names ∧
        (∀ i, i < fuel → get_previous_month (prevT^[i] period) = some (prevT^[i + 1] period)) := by
  intro fuel
  induction fuel with
  | zero =>
    intro period ltr h
    rw [show runLoop env event 0 period = ([], .ok ()) from rfl] at h
    injection h with h1 h2
    subst h1
    exact ⟨[], rfl, rfl, fun i hi => absurd hi (Nat.not_lt_zero i)⟩
  | succ fuel ih =>
    intro period ltr h
    rw [runLoop_succ, get_csv_url_ok event base period.isoformat hb] at h
    simp only [] at h
    cases hgb : get_balances_csv (env.http (build_csv_url base period.isoformat)) env.now with
    | error e2 =>
      simp only [hgb] at h
      injection h with h1 h2
      cases h2
    | ok nf =>
      simp only [hgb] at h
      cases hup : env.uploadOk nf.1 nf.2.content with
      | false =>
        simp only [hup, Bool.false_eq_true, if_false] at h
        injection h with h1 h2
        cases h2
      | true =>
        simp only [hup, if_true] at h
        cases hpm : get_previous_month period with
        | none =>
          simp only [hpm] at h
          injection h with h1 h2
          cases h2
        | some p' =>
          simp only [hpm] at h
          injection h with h1 h2
          subst h1
          have hp' : prevT period = p' := by
            simp [prevT, hpm]
          obtain ⟨names, hlen, htr, hsteps⟩ :=
            ih p' (runLoop env event fuel p').1 (by rw [← h2])
          refine ⟨nf.1 :: names, by simp [hlen], ?_, ?_⟩
          · rw [htr, refDates_succ, hp']
            rfl
          · intro i hi
            cases i with
            | zero =>
              rw [Function.iterate_zero_apply, Function.iterate_one, hp', hpm]
            | succ i =>
              rw [Function.iterate_succ_apply, Function.iterate_succ_apply prevT (i + 1) period,
                hp']
              exact hsteps i (by omega)



/-! ## The claims -/

/-- C7 counterexample: the claim quantifies over every date whose day is
valid in the resulting month.  `date(1, 1, 4)` is a valid date, day 4 is a
valid day of the resulting month (December has 31 days), yet
`get_previous_month` raises (Python refuses `replace(year=0)`) instead of
returning December of the preceding year. -/
theorem previous_month_min_year_cex :
    PyDate.valid ⟨1, 1, 4⟩ = true ∧ 4 ≤ daysInMonth 0 12 ∧
    get_previous_month ⟨1, 1, 4⟩ = none ∧
    get_previous_month ⟨1, 1, 4⟩ ≠ some ⟨0, 12, 4⟩ := by decide

/-- C7 (amended): for every valid date whose day is a valid day of the
resulting month, `previousMonth` of a January date of year at least 2 is
December of the preceding year with the same day, and of a non-January
date is the same year and day with the month decremented; in particular
`previousMonth(date(2025,1,4)) = date(2024,12,4)` and
`previousMonth(date(2025,4,4)) = date(2025,3,4)`. -/
theorem get_previous_month_amended (d : PyDate) (hv : d.valid = true) :
    (d.month = 1 → 2 ≤ d.year → get_previous_month d = some ⟨d.year - 1, 12, d.day⟩) ∧
    (¬d.month = 1 → d.day ≤ daysInMonth d.year (d.month - 1) →
      get_previous_month d = some ⟨d.year, d.month - 1, d.day⟩) ∧
    get_previous_month ⟨2025, 1, 4⟩ = some ⟨2024, 12, 4⟩ ∧
    get_previous_month ⟨2025, 4, 4⟩ = some ⟨2025, 3, 4⟩ := by
  obtain ⟨y, m, dd⟩ := d
  simp only [PyDate.valid, Bool.and_eq_true, decide_eq_true_eq] at hv
  obtain ⟨⟨⟨⟨⟨h1, h2⟩, h3⟩, h4⟩, h5⟩, h6⟩ := hv
  refine ⟨?_, ?_, by decide, by decide⟩
  · intro hm hy
    dsimp only at hm hy
    subst hm
    have h31 : daysInMonth y 1 = 31 := daysInMonth_one y
    have hval : PyDate.valid ⟨y - 1, 12, dd⟩ = true := by
      simp only [PyDate.valid, Bool.and_eq_true, decide_eq_true_eq, daysInMonth_twelve]
      omega
    rw [show get_previous_month ⟨y, 1, dd⟩ = mkPyDate (y - 1) 12 dd from if_pos rfl,
      mkPyDate, if_pos hval]
  · intro hm hd
    dsimp only at hm hd
    have hval : PyDate.valid ⟨y, m - 1, dd⟩ = true := by
      simp only [PyDate.valid, Bool.and_eq_true, decide_eq_true_eq]
      omega
    rw [show get_previous_month ⟨y, m, dd⟩ = mkPyDate y (m - 1) dd from if_neg hm,
      mkPyDate, if_pos hval]

/-- C7 witness: the amended theorem applied at `date(2025, 1, 4)`. -/
theorem get_previous_month_amended_witness :
    get_previous_month ⟨2025, 1, 4⟩ = some ⟨2024, 12, 4⟩ :=
  (get_previous_month_amended ⟨2025, 1, 4⟩ (by decide)).1 rfl (by decide)

/-- C10 counterexample: the claim asserts that `previousMonth` never
raises on a date with day at most 28, but it raises on `date(1, 1, 4)`
(January of the minimum year 1, where the preceding year is out of
range). -/
theorem prev_month_day28_cex :
    PyDate.valid ⟨1, 1, 4⟩ = true ∧ 4 ≤ 28 ∧ get_previous_month ⟨1, 1, 4⟩ = none := by decide

/-- C10 (amended): on a valid date, `previousMonth` raises exactly when
the day exceeds the length of the target (previous) month or the input is
January of the minimum year 1; for every date with day at most 28 that is
not January of year 1 it never raises; e.g. `date(2025, 3, 31)` raises
because February 2025 has no day 31. -/
theorem prev_month_overflow_amended (d : PyDate) (hv : d.valid = true) :
    (get_previous_month d = none ↔
      (prevMonthDays d < d.day ∨ (d.month = 1 ∧ d.year = 1))) ∧
    (d.day ≤ 28 → (d.month = 1 → 2 ≤ d.year) → (get_previous_month d).isSome = true) ∧
    get_previous_month ⟨2025, 3, 31⟩ = none := by
  refine ⟨prev_none_iff d hv, ?_, by decide⟩
  intro h28 hy
  have h := prev_none_iff d hv
  have hge : 28 ≤ prevMonthDays d := by
    unfold prevMonthDays
    split
    · exact daysInMonth_ge _ _
    · exact daysInMonth_ge _ _
  cases ho : get_previous_month d with
  | none =>
    rcases h.mp ho with hlt | ⟨hm1, hy1⟩
    · omega
    · have := hy hm1
      omega
  | some p' => rfl

/-- C10 witness: the amended theorem applied at `date(2025, 4, 28)`. -/
theorem prev_month_overflow_amended_witness :
    (get_previous_month ⟨2025, 4, 28⟩).isSome = true :=
  (prev_month_overflow_amended ⟨2025, 4, 28⟩ (by decide)).2.1 (by decide) (by decide)

/-- C9: URL construction appends the fixed flag and target date after `&`
when the base URL contains a question mark and after `?` otherwise,
keeping the base URL (with any pre-existing query parameters) as an
unaltered prefix; the spec's two examples hold. -/
theorem get_csv_url_spec :
    (∀ b w : String, build_csv_url b w =
      if b.toList.contains '?' then b ++ "&show_inactive_codes&target_date=" ++ w
      else b ++ "?show_inactive_codes&target_date=" ++ w) ∧
    build_csv_url "https://example.com/balances" "2025-03-01" =
      "https://example.com/balances?show_inactive_codes&target_date=2025-03-01" ∧
    build_csv_url "https://example.com/balances?foo" "2025-03-01" =
      "https://example.com/balances?foo&show_inactive_codes&target_date=2025-03-01" := by
  refine ⟨?_, by decide, by decide⟩
  intro b w
  have hamp : ("&" : String) ++ "show_inactive_codes&target_date=" =
      "&show_inactive_codes&target_date=" := by decide
  have hq : ("?" : String) ++ "show_inactive_codes&target_date=" =
      "?show_inactive_codes&target_date=" := by decide
  unfold build_csv_url
  split
  · rw [← hamp, ← String.append_assoc b "&" "show_inactive_codes&target_date=",
      String.append_assoc (b ++ "&") "show_inactive_codes&target_date=" w]
  · rw [← hq, ← String.append_assoc b "?" "show_inactive_codes&target_date=",
      String.append_assoc (b ++ "?") "show_inactive_codes&target_date=" w]

/-- C8 counterexample: the claim says the short field name equals the
full key with the prefix removed, including for keys nested more than one
level below the prefix.  For full key `/sftp/sub/user` under prefix
`/sftp`, the prefix-stripped name is `sub/user`, but the code keeps only
the last path segment `user`; consequently a secrets-store reply whose
keys are nested deeper still resolves (the claim would predict a missing
`user` credential). -/
theorem nested_key_short_name_cex :
    stripKey "/sftp/sub/user" = "user" ∧ ("user" : String) ≠ "sub/user" ∧
    get_ssm_params [("/sftp/sub/user", "u"), ("/sftp/pass", "pw"), ("/sftp/host", "h")] =
      .ok [("user", PVal.s "u"), ("pass", PVal.s "pw"), ("host", PVal.s "h"),
           ("port", PVal.i 22)] := by decide

/-- C8 (amended): the Secrets Resolver shortens each full key to its final
slash-separated segment; this equals the prefix-stripped key exactly for
keys one level below the prefix (a slash-free last segment), while deeper
keys lose their intermediate segments. -/
theorem strip_last_segment_amended :
    (∀ pre leaf : String, (∀ c ∈ leaf.toList, ¬c = '/') →
      stripKey (pre ++ "/" ++ leaf) = leaf) ∧
    stripKey "/sftp/user" = "user" ∧
    stripKey "/sftp/sub/user" = "user" := by
  refine ⟨?_, by decide, by decide⟩
  intro pre leaf h
  exact stripKey_append pre leaf h

/-- C8 witness: the amended theorem applied at prefix `/sftp` and leaf
`user`. -/
theorem strip_last_segment_amended_witness :
    stripKey ("/sftp" ++ "/" ++ "user") = "user" :=
  strip_last_segment_amended.1 "/sftp" "user" (by decide)

/-- C6: on every successful fetch (non-error HTTP status) whose body's
first data row carries a parseable `PeriodStart`, the Report Fetcher
returns the filename
`Sage-Balances-<FullMonthName>-<Year>-<yyyyMMddHHmmss>.csv` — month and
year taken from `PeriodStart`, timestamp from the wall clock at filename
generation — together with the unmodified response body at stream
position 0. -/
theorem get_balances_csv_filename (resp : Resp) (now : PyDateTime) (p : String) (d : PyDate)
    (hst : resp.status < 400)
    (hrow : firstRowField resp.text "PeriodStart" = some p)
    (hd : pyDateFromIso p = some d) :
    get_balances_csv resp now =
      .ok ("Sage-Balances-" ++ monthName d.month ++ "-" ++ padNat 4 d.year.toNat ++ "-" ++
            timestamp14 now ++ ".csv",
          { content := resp.text, pos := 0 }) := by
  have hns : ¬(400 ≤ resp.status ∧ resp.status < 600) := by omega
  simp [get_balances_csv, hns, hrow, get_file_name, hd]

/-- C6 witness: the spec's example — `PeriodStart=2025-03-01` in the
first data row, wall clock 2025-04-04T10:10:10 — yields
`Sage-Balances-March-2025-20250404101010.csv` and the body at position
0. -/
theorem get_balances_csv_filename_witness :
    get_balances_csv ⟨200, wCsv⟩ ⟨2025, 4, 4, 10, 10, 10⟩ =
      .ok ("Sage-Balances-March-2025-20250404101010.csv", { content := wCsv, pos := 0 }) := by
  have h := get_balances_csv_filename ⟨200, wCsv⟩ ⟨2025, 4, 4, 10, 10, 10⟩ "2025-03-01"
    ⟨2025, 3, 1⟩ (by decide) (by decide) (by decide)
  exact h.trans (by decide)

/-- C5: credential resolution fails with `MissingCredentialError` iff one
of `user`, `pass`, `host` is absent from the shortened-key mapping;
otherwise, it fails with `InvalidCredentialError` iff a `port` is present
whose value does not parse as an integer; on success it returns the
mapping with `port` replaced by its integer value, or with `port = 22`
appended when `port` was absent — all other values (empty strings
included) passed through as-is. -/
theorem get_ssm_params_spec (resp : List (String × String)) :
    (isMissingCredErr (get_ssm_params resp) = true ↔
      ¬(((buildParams resp).lookup "user").isSome = true ∧
        ((buildParams resp).lookup "pass").isSome = true ∧
        ((buildParams resp).lookup "host").isSome = true)) ∧
    (((buildParams resp).lookup "user").isSome = true →
      ((buildParams resp).lookup "pass").isSome = true →
      ((buildParams resp).lookup "host").isSome = true →
      (isInvalidCredErr (get_ssm_params resp) = true ↔
        (∃ v, (buildParams resp).lookup "port" = some v ∧ pyIntString v = none)) ∧
      (∀ v k, (buildParams resp).lookup "port" = some v → pyIntString v = some k →
        get_ssm_params resp =
          .ok ((buildParams resp).map
            (fun kv => if kv.1 == "port" then (kv.1, PVal.i k) else (kv.1, PVal.s kv.2)))) ∧
      ((buildParams resp).lookup "port" = none →
        get_ssm_params resp =
          .ok (((buildParams resp).map (fun kv => (kv.1, PVal.s kv.2))) ++
            [("port", PVal.i 22)]))) := by
  cases hu : (buildParams resp).lookup "user" with
  | none =>
    have hr : get_ssm_params resp = .error (Err.missingCred "user") := by
      simp [get_ssm_params, hu]
    refine ⟨?_, ?_⟩
    · rw [hr]
      simp [isMissingCredErr, hu]
    · intro h1
      simp at h1
  | some uv =>
    cases hp2 : (buildParams resp).lookup "pass" with
    | none =>
      have hr : get_ssm_params resp = .error (Err.missingCred "pass") := by
        simp [get_ssm_params, hu, hp2]
      refine ⟨?_, ?_⟩
      · rw [hr]
        simp [isMissingCredErr, hp2]
      · intro h1 h2
        simp at h2
    | some pv2 =>
      cases hh : (buildParams resp).lookup "host" with
      | none =>
        have hr : get_ssm_params resp = .error (Err.missingCred "host") := by
          simp [get_ssm_params, hu, hp2, hh]
        refine ⟨?_, ?_⟩
        · rw [hr]
          simp [isMissingCredErr, hh]
        · intro h1 h2 h3
          simp at h3
      | some hv2 =>
        cases hport : (buildParams resp).lookup "port" with
        | none =>
          have hr : get_ssm_params resp =
              .ok (((buildParams resp).map (fun kv => (kv.1, PVal.s kv.2))) ++
                [("port", PVal.i 22)]) := by
            simp [get_ssm_params, hu, hp2, hh, hport]
          refine ⟨?_, ?_⟩
          · rw [hr]
            simp [isMissingCredErr]
          · intro h1 h2 h3
            refine ⟨?_, ?_, ?_⟩
            · rw [hr]
              simp [isInvalidCredErr, hport]
            · intro v k hv hk
              cases hv
            · intro h4
              exact hr
        | some pv =>
          cases hip : pyIntString pv with
          | none =>
            have hr : get_ssm_params resp = .error (Err.invalidCred "port") := by
              simp [get_ssm_params, hu, hp2, hh, hport, hip]
            refine ⟨?_, ?_⟩
            · rw [hr]
              simp [isMissingCredErr]
            · intro h1 h2 h3
              refine ⟨?_, ?_, ?_⟩
              · rw [hr]
                simp only [isInvalidCredErr, true_iff]
                exact ⟨pv, rfl, hip⟩
              · intro v k hv hk
                injection hv with hv
                subst hv
                rw [hip] at hk
                cases hk
              · intro h4
                cases h4
          | some k0 =>
            have hr : get_ssm_params resp =
                .ok ((buildParams resp).map
                  (fun kv => if kv.1 == "port" then (kv.1, PVal.i k0)
                    else (kv.1, PVal.s kv.2))) := by
              simp [get_ssm_params, hu, hp2, hh, hport, hip]
            refine ⟨?_, ?_⟩
            · rw [hr]
              simp [isMissingCredErr]
            · intro h1 h2 h3
              refine ⟨?_, ?_, ?_⟩
              · rw [hr]
                simp only [isInvalidCredErr, Bool.false_eq_true, false_iff]
                rintro ⟨v, hv, hvp⟩
                injection hv with hv
                subst hv
                rw [hip] at hvp
                cases hvp
              · intro v k hv hk
                injection hv with hv
                subst hv
                rw [hip] at hk
                injection hk with hk
                subst hk
                exact hr
              · intro h4
                cases h4

/-- C5 witness: a reply carrying `user`, `pass`, `host` one level below
the prefix and no `port` resolves to the mapping with the default
`port = 22` appended. -/
theorem get_ssm_params_spec_witness :
    get_ssm_params wSsm =
      .ok [("user", PVal.s "u"), ("pass", PVal.s "pw"), ("host", PVal.s "example.com"),
           ("port", PVal.i 22)] := by
  have h := ((get_ssm_params_spec wSsm).2 (by decide) (by decide) (by decide)).2.2 (by decide)
  exact h.trans (by decide)

/-- C1: for a valid request with period count `n` and a string balances
base URL, a successful invocation performs exactly `n` fetch+upload
cycles, strictly sequentially — the `i`-th cycle fetching the URL built
from the reference date obtained by applying `previousMonth` `i` times to
today's date — and the reference dates strictly decrease, most recent
month first. -/
theorem lambda_handler_cycles_descending
    (env : Env) (event : PyEvent) (n : Int) (base : String) (tr : List Ev)
    (hn : get_period_count event = .ok n)
    (hb : get_event_param event "mip_api_balances_url" = .ok (.vStr base))
    (hok : lambda_handler env event = (tr, .ok ())) :
    ∃ names : List String,
      names.length = n.toNat ∧
      tr = Ev.ssmCall :: Ev.transportOpen :: Ev.sessionOpen ::
        (cycleTrace base (refDates env.today n.toNat) names ++
          [Ev.closeClient, Ev.closeTransport]) ∧
      (∀ i, i < n.toNat →
        get_previous_month (prevT^[i] env.today) = some (prevT^[i + 1] env.today)) ∧
      (∀ i, i + 1 < n.toNat →
        PyDate.lt (prevT^[i + 1] env.today) (prevT^[i] env.today) = true) := by
  simp only [lambda_handler, hn] at hok
  cases hp : get_event_param event "ssm_secret_prefix" with
  | error e =>
    simp only [hp] at hok
    injection hok with h1 h2
    cases h2
  | ok pfx =>
    simp only [hp] at hok
    cases hs : get_ssm_params (env.ssm (pyStr pfx)) with
    | error e =>
      simp only [hs] at hok
      injection hok with h1 h2
      cases h2
    | ok auth =>
      simp only [hs] at hok
      cases ht : env.transportOk with
      | false =>
        have hsc : get_sftp_client env auth = ([], .error Err.connectionError) := by
          simp [get_sftp_client, ht]
        simp only [hsc] at hok
        injection hok with h1 h2
        cases h2
      | true =>
        cases ha : env.authOk with
        | false =>
          have hsc : get_sftp_client env auth = ([Ev.transportOpen], .error Err.authError) := by
            simp [get_sftp_client, ht, ha]
          simp only [hsc] at hok
          injection hok with h1 h2
          cases h2
        | true =>
          have hsc : get_sftp_client env auth =
              ([Ev.transportOpen, Ev.sessionOpen], .ok ()) := by
            simp [get_sftp_client, ht, ha]
          simp only [hsc] at hok
          injection hok with h1 h2
          obtain ⟨names, hlen, htr, hsteps⟩ :=
            runLoop_ok env event base hb n.toNat env.today
              (runLoop env event n.toNat env.today).1 (by rw [← h2])
          refine ⟨names, hlen, ?_, hsteps, ?_⟩
          · rw [← h1, htr]
            simp
          · intro i hi
            exact prev_lt _ _ (hsteps i (by omega))

/-- C2: once the session has been opened successfully, the invocation
closes it exactly once — protocol session first, then transport — as the
final two actions of the trace whether the loop completed or raised; the
invocation's outcome is exactly the loop's outcome (a loop error is
re-raised after cleanup); and a failed upload is the last loop action
before the close pair, with the upload error propagated. -/
theorem lambda_handler_close_once
    (env : Env) (event : PyEvent) (n : Int) (pfx : PyVal) (auth : List (String × PVal))
    (tr : List Ev) (r : Except Err Unit)
    (hn : get_period_count event = .ok n)
    (hp : get_event_param event "ssm_secret_prefix" = .ok pfx)
    (hs : get_ssm_params (env.ssm (pyStr pfx)) = .ok auth)
    (ht : env.transportOk = true) (ha : env.authOk = true)
    (h : lambda_handler env event = (tr, r)) :
    tr = Ev.ssmCall :: Ev.transportOpen :: Ev.sessionOpen ::
        ((runLoop env event n.toNat env.today).1 ++ [Ev.closeClient, Ev.closeTransport]) ∧
    r = (runLoop env event n.toNat env.today).2 ∧
    tr.count Ev.closeClient = 1 ∧
    tr.count Ev.closeTransport = 1 ∧
    (∀ nm, Ev.uploadFail nm ∈ tr →
      (∃ b, tr = b ++ [Ev.uploadFail nm, Ev.closeClient, Ev.closeTransport]) ∧
      r = .error Err.uploadError) := by
  simp only [lambda_handler, hn, hp, hs] at h
  have hsc : get_sftp_client env auth = ([Ev.transportOpen, Ev.sessionOpen], .ok ()) := by
    simp [get_sftp_client, ht, ha]
  simp only [hsc] at h
  injection h with h1 h2
  subst h2
  have h1' : tr = Ev.ssmCall :: Ev.transportOpen :: Ev.sessionOpen ::
      ((runLoop env event n.toNat env.today).1 ++ [Ev.closeClient, Ev.closeTransport]) := by
    rw [← h1]
    simp
  have hnoc : ∀ e : Ev, e ∈ (runLoop env event n.toNat env.today).1 →
      e ≠ Ev.closeClient ∧ e ≠ Ev.closeTransport := by
    intro e he
    rcases runLoop_events env event n.toNat env.today
        (runLoop env event n.toNat env.today).1
        (runLoop env event n.toNat env.today).2 e rfl he with ⟨u, hu⟩ | ⟨s, hs'⟩ | ⟨s, hs'⟩
    · subst hu
      exact ⟨fun hc => Ev.noConfusion hc, fun hc => Ev.noConfusion hc⟩
    · subst hs'
      exact ⟨fun hc => Ev.noConfusion hc, fun hc => Ev.noConfusion hc⟩
    · subst hs'
      exact ⟨fun hc => Ev.noConfusion hc, fun hc => Ev.noConfusion hc⟩
  have hcc : (runLoop env event n.toNat env.today).1.count Ev.closeClient = 0 :=
    List.count_eq_zero.mpr (fun hmem => (hnoc _ hmem).1 rfl)
  have hct : (runLoop env event n.toNat env.today).1.count Ev.closeTransport = 0 :=
    List.count_eq_zero.mpr (fun hmem => (hnoc _ hmem).2 rfl)
  refine ⟨h1', rfl, ?_, ?_, ?_⟩
  · rw [h1']
    simp [List.count_cons, List.count_append, hcc]
  · rw [h1']
    simp [List.count_cons, List.count_append, hct]
  · intro nm hmem
    rw [h1'] at hmem
    simp only [List.mem_cons, List.mem_append, List.mem_singleton] at hmem
    rcases hmem with hx | hx | hx | hx | hx | hx | hx
    · cases hx
    · cases hx
    · cases hx
    · obtain ⟨⟨b, hb⟩, hr⟩ := runLoop_uploadFail env event n.toNat env.today
        (runLoop env event n.toNat env.today).1
        (runLoop env event n.toNat env.today).2 nm rfl hx
      refine ⟨⟨Ev.ssmCall :: Ev.transportOpen :: Ev.sessionOpen :: b, ?_⟩, hr⟩
      rw [h1', hb]
      simp
    · cases hx
    · cases hx
    · simp at hx

/-- C1 witness: the two-month all-success scenario — two fetch+upload
cycles at `target_date=2025-04-04` then `2025-03-04`, most recent first. -/
theorem lambda_handler_cycles_descending_witness :
    ∃ names : List String,
      names.length = (2 : Int).toNat ∧
      ([Ev.ssmCall, Ev.transportOpen, Ev.sessionOpen,
        Ev.httpGet "https://example.com/balances?show_inactive_codes&target_date=2025-04-04",
        Ev.upload "Sage-Balances-March-2025-20250404101010.csv",
        Ev.httpGet "https://example.com/balances?show_inactive_codes&target_date=2025-03-04",
        Ev.upload "Sage-Balances-March-2025-20250404101010.csv",
        Ev.closeClient, Ev.closeTransport] : List Ev) =
        Ev.ssmCall :: Ev.transportOpen :: Ev.sessionOpen ::
          (cycleTrace "https://example.com/balances"
            (refDates envFullRun.today (2 : Int).toNat) names ++
            [Ev.closeClient, Ev.closeTransport]) ∧
      (∀ i, i < (2 : Int).toNat →
        get_previous_month (prevT^[i] envFullRun.today) =
          some (prevT^[i + 1] envFullRun.today)) ∧
      (∀ i, i + 1 < (2 : Int).toNat →
        PyDate.lt (prevT^[i + 1] envFullRun.today) (prevT^[i] envFullRun.today) = true) :=
  lambda_handler_cycles_descending envFullRun eventFullRun 2 "https://example.com/balances"
    [Ev.ssmCall, Ev.transportOpen, Ev.sessionOpen,
     Ev.httpGet "https://example.com/balances?show_inactive_codes&target_date=2025-04-04",
     Ev.upload "Sage-Balances-March-2025-20250404101010.csv",
     Ev.httpGet "https://example.com/balances?show_inactive_codes&target_date=2025-03-04",
     Ev.upload "Sage-Balances-March-2025-20250404101010.csv",
     Ev.closeClient, Ev.closeTransport]
    (by decide) (by decide) (by decide)

/-- C2 witness: with the first upload failing, the invocation's trace is
fetch, failed upload, then the close pair, and the upload error is the
outcome. -/
theorem lambda_handler_close_once_witness :
    ([Ev.ssmCall, Ev.transportOpen, Ev.sessionOpen,
      Ev.httpGet "https://example.com/balances?show_inactive_codes&target_date=2025-04-04",
      Ev.uploadFail "Sage-Balances-March-2025-20250404101010.csv",
      Ev.closeClient, Ev.closeTransport] : List Ev) =
      Ev.ssmCall :: Ev.transportOpen :: Ev.sessionOpen ::
        ((runLoop envUploadFailure eventUploadFailure (1 : Int).toNat
            envUploadFailure.today).1 ++ [Ev.closeClient, Ev.closeTransport]) ∧
    (Except.error Err.uploadError : Except Err Unit) =
      (runLoop envUploadFailure eventUploadFailure (1 : Int).toNat envUploadFailure.today).2 ∧
    List.count Ev.closeClient
      [Ev.ssmCall, Ev.transportOpen, Ev.sessionOpen,
       Ev.httpGet "https://example.com/balances?show_inactive_codes&target_date=2025-04-04",
       Ev.uploadFail "Sage-Balances-March-2025-20250404101010.csv",
       Ev.closeClient, Ev.closeTransport] = 1 ∧
    List.count Ev.closeTransport
      [Ev.ssmCall, Ev.transportOpen, Ev.sessionOpen,
       Ev.httpGet "https://example.com/balances?show_inactive_codes&target_date=2025-04-04",
       Ev.uploadFail "Sage-Balances-March-2025-20250404101010.csv",
       Ev.closeClient, Ev.closeTransport] = 1 ∧
    (∀ nm, Ev.uploadFail nm ∈
        ([Ev.ssmCall, Ev.transportOpen, Ev.sessionOpen,
          Ev.httpGet "https://example.com/balances?show_inactive_codes&target_date=2025-04-04",
          Ev.uploadFail "Sage-Balances-March-2025-20250404101010.csv",
          Ev.closeClient, Ev.closeTransport] : List Ev) →
      (∃ b, ([Ev.ssmCall, Ev.transportOpen, Ev.sessionOpen,
          Ev.httpGet "https://example.com/balances?show_inactive_codes&target_date=2025-04-04",
          Ev.uploadFail "Sage-Balances-March-2025-20250404101010.csv",
          Ev.closeClient, Ev.closeTransport] : List Ev) =
          b ++ [Ev.uploadFail nm, Ev.closeClient, Ev.closeTransport]) ∧
      (Except.error Err.uploadError : Except Err Unit) = .error Err.uploadError) :=
  lambda_handler_close_once envUploadFailure eventUploadFailure 1 (PyVal.vStr "/sftp") wAuth
    [Ev.ssmCall, Ev.transportOpen, Ev.sessionOpen,
     Ev.httpGet "https://example.com/balances?show_inactive_codes&target_date=2025-04-04",
     Ev.uploadFail "Sage-Balances-March-2025-20250404101010.csv",
     Ev.closeClient, Ev.closeTransport]
    (.error Err.uploadError)
    (by decide) (by decide) (by decide) (by decide) (by decide) (by decide)

/-- C3 counterexample: the claim says an invocation lacking the balances
base URL fails without contacting the secrets store, the balances API, or
the file-transfer server.  In the code the URL is only read inside the
fetch loop, so with a valid `period_count` and prefix the invocation
queries the secrets store and opens the transfer session before failing:
`ssmCall` and `sessionOpen` appear in the trace. -/
theorem missing_url_contacts_network :
    List.lookup "mip_api_balances_url" eventMissingUrl = none ∧
    lambda_handler envMissingUrl eventMissingUrl =
      ([Ev.ssmCall, Ev.transportOpen, Ev.sessionOpen, Ev.closeClient, Ev.closeTransport],
        .error (Err.invalidRequest "mip_api_balances_url not provided")) ∧
    Ev.ssmCall ∈ (lambda_handler envMissingUrl eventMissingUrl).1 ∧
    Ev.sessionOpen ∈ (lambda_handler envMissingUrl eventMissingUrl).1 := by decide

/-- C3 (amended): the `periodCount` and `secretsPathPrefix` validations
happen before any network call (a failure of either yields an empty
trace), but the `balancesApiBaseUrl` check happens only inside the fetch
loop: a request lacking it still fails with `InvalidRequestError` and
performs no fetch and no upload, but only after the secrets store has
been contacted and the transfer session opened (and closed again). -/
theorem validation_order_amended :
    (∀ (env : Env) (event : PyEvent) (e : Err),
      get_period_count event = .error e → lambda_handler env event = ([], .error e)) ∧
    (∀ (env : Env) (event : PyEvent) (n : Int) (e : Err),
      get_period_count event = .ok n →
      get_event_param event "ssm_secret_prefix" = .error e →
      lambda_handler env event = ([], .error e)) ∧
    (∀ (env : Env) (event : PyEvent) (n : Int) (pfx : PyVal) (auth : List (String × PVal)),
      get_period_count event = .ok n →
      get_event_param event "ssm_secret_prefix" = .ok pfx →
      get_ssm_params (env.ssm (pyStr pfx)) = .ok auth →
      env.transportOk = true → env.authOk = true →
      List.lookup "mip_api_balances_url" event = none →
      lambda_handler env event =
        ([Ev.ssmCall, Ev.transportOpen, Ev.sessionOpen, Ev.closeClient, Ev.closeTransport],
          .error (Err.invalidRequest "mip_api_balances_url not provided"))) := by
  refine ⟨?_, ?_, ?_⟩
  · intro env event e he
    simp [lambda_handler, he]
  · intro env event n e hn he
    simp [lambda_handler, hn, he]
  · intro env event n pfx auth hn hp hs ht ha hurl
    have hn1 : 1 ≤ n := get_period_count_pos event n hn
    have hmsg : ("mip_api_balances_url" ++ " not provided" : String) =
        "mip_api_balances_url not provided" := by decide
    have hsc : get_sftp_client env auth = ([Ev.transportOpen, Ev.sessionOpen], .ok ()) := by
      simp [get_sftp_client, ht, ha]
    have hcu : get_csv_url event (PyDate.isoformat env.today) =
        .error (Err.invalidRequest "mip_api_balances_url not provided") := by
      simp [get_csv_url, get_event_param, hurl, hmsg]
    obtain ⟨m, hm⟩ : ∃ m, n.toNat = m + 1 := ⟨n.toNat - 1, by omega⟩
    simp only [lambda_handler, hn, hp, hs, hsc, hm, runLoop_succ, hcu]
    rfl

/-- C3 witness: the amended theorem applied to the concrete
missing-URL scenario. -/
theorem validation_order_amended_witness :
    lambda_handler envMissingUrl eventMissingUrl =
      ([Ev.ssmCall, Ev.transportOpen, Ev.sessionOpen, Ev.closeClient, Ev.closeTransport],
        .error (Err.invalidRequest "mip_api_balances_url not provided")) :=
  validation_order_amended.2.2 envMissingUrl eventMissingUrl 1 (PyVal.vStr "/sftp") wAuth
    (by decide) (by decide) (by decide) (by decide) (by decide) (by decide)

/-- C4 counterexample: the claim says a failed open leaves no
partially-open resource.  When authentication fails after the transport
connection is established, the invocation ends with the transport opened
(`transportOpen` in the trace) and never closed (no `closeTransport`):
the transport connection is left dangling. -/
theorem auth_failure_leaves_transport :
    lambda_handler envAuthFailure eventAuthFailure =
      ([Ev.ssmCall, Ev.transportOpen], .error Err.authError) ∧
    Ev.transportOpen ∈ (lambda_handler envAuthFailure eventAuthFailure).1 ∧
    Ev.closeTransport ∉ (lambda_handler envAuthFailure eventAuthFailure).1 ∧
    Ev.closeClient ∉ (lambda_handler envAuthFailure eventAuthFailure).1 := by decide

/-- C4 (amended): if establishing the transport connection itself fails,
no resource is acquired; but if authentication fails after the transport
connection is established, `get_sftp_client` raises with the transport
still open, and the invocation ends without ever closing it — opening the
upload session is not atomic. -/
theorem open_not_atomic_amended :
    (∀ (env : Env) (auth : List (String × PVal)), env.transportOk = false →
      get_sftp_client env auth = ([], .error Err.connectionError)) ∧
    (∀ (env : Env) (auth : List (String × PVal)),
      env.transportOk = true → env.authOk = false →
      get_sftp_client env auth = ([Ev.transportOpen], .error Err.authError)) ∧
    (∀ (env : Env) (event : PyEvent) (n : Int) (pfx : PyVal) (auth : List (String × PVal)),
      get_period_count event = .ok n →
      get_event_param event "ssm_secret_prefix" = .ok pfx →
      get_ssm_params (env.ssm (pyStr pfx)) = .ok auth →
      env.transportOk = true → env.authOk = false →
      lambda_handler env event = ([Ev.ssmCall, Ev.transportOpen], .error Err.authError)) := by
  refine ⟨?_, ?_, ?_⟩
  · intro env auth ht
    simp [get_sftp_client, ht]
  · intro env auth ht ha
    simp [get_sftp_client, ht, ha]
  · intro env event n pfx auth hn hp hs ht ha
    have hsc : get_sftp_client env auth = ([Ev.transportOpen], .error Err.authError) := by
      simp [get_sftp_client, ht, ha]
    simp only [lambda_handler, hn, hp, hs, hsc]

/-- C4 witness: the amended theorem applied to the concrete auth-failure
scenario. -/
theorem open_not_atomic_amended_witness :
    lambda_handler envAuthFailure eventAuthFailure =
      ([Ev.ssmCall, Ev.transportOpen], .error Err.authError) :=
  open_not_atomic_amended.2.2 envAuthFailure eventAuthFailure 1 (PyVal.vStr "/sftp") wAuth
    (by decide) (by decide) (by decide) (by decide) (by decide)
